import Mathlib

/-!
Shallow embedding of the presence-detection and actuation controller of
`feeder-fw` (`components/app_beacon/app_beacon.c`, `components/app_pwm/app_pwm.c`),
together with theorems settling the specification claims about it.

Modelling conventions:
* C `static` module variables become fields of explicit state structures.
* The `float` moving-average arithmetic is modelled over `ℚ` (all values that
  actually arise are integer sums divided by 8, which the C `float` represents
  exactly for the byte-sized RSSI values delivered by the radio).
* `uint8_t` payload and address bytes are `Fin 256`; the C `int` RSSI is `ℤ`;
  `uint16_t` counters are `ℕ` (no operation in the code can overflow them).
* Side effects (driving the battery-low sink, `app_pwm__set_duty_max`/`min`,
  resuming or suspending the check task) are returned as explicit action
  records instead of being performed.
-/

namespace FeederFw

/-- Constant `ESP_GAP_SEARCH_INQ_RES_EVT`: the discovery-result search event code. -/
def ESP_GAP_SEARCH_INQ_RES_EVT : ℕ := 0

/-- Constant `RSSI_MOVING_AVG_NUM_OF_SAMPLES` from `app_beacon.c`. -/
def RSSI_MOVING_AVG_NUM_OF_SAMPLES : ℕ := 8

/-- Constant `MIN_RSSI_FOR_DETECTION_DBM` from `app_beacon.c`. -/
def MIN_RSSI_FOR_DETECTION_DBM : ℤ := -48

/-- Constant `MIN_TIMES_SEEN_FOR_DETECTION` from `app_beacon.c`. -/
def MIN_TIMES_SEEN_FOR_DETECTION : ℕ := 3

/-- Constant `MAX_TIMES_SEEN` from `app_beacon.c`. -/
def MAX_TIMES_SEEN : ℕ := 4

/-- Constant `TIME_BEFORE_BEACON_LOST_CHECK_INIT_VAL_MS` from `app_beacon.c`. -/
def TIME_BEFORE_BEACON_LOST_CHECK_INIT_VAL_MS : ℕ := 1000

/-- Constant `TIME_BEFORE_BEACON_LOST_CHECK_DECREMENT_MS` from `app_beacon.c`. -/
def TIME_BEFORE_BEACON_LOST_CHECK_DECREMENT_MS : ℕ := 500

/-- Enumeration `ble_scan_status_t` from `app_beacon.c`. -/
inductive BleScanStatus
  | ble_scan_uninit
  | ble_scan_initialing
  | ble_scan_off
  | ble_scan_starting
  | ble_scan_on
  | ble_scan_stopping
  | ble_scan_start_pending
  | ble_scan_stop_pending
  deriving DecidableEq, Repr, Fintype

export BleScanStatus (ble_scan_uninit ble_scan_initialing ble_scan_off
  ble_scan_starting ble_scan_on ble_scan_stopping ble_scan_start_pending
  ble_scan_stop_pending)

/-- The module state of `app_beacon.c`: the statics `scan_status` (only the
bare status enum value; in-flight hardware operations are modelled separately
for the scan state machine), `beacon` (fields `auth_mac`, `found`,
`times_seen`), `rssi_moving_avg_samples`, `rssi_moving_avg_samples_index`,
`rssi_moving_avg_ready` and `rssi_moving_avg_result_prev`.
The sample array is modelled as a total function `ℕ → ℤ` so that the
in-bounds property of every write is a provable statement rather than a
typing assumption. -/
structure BeaconState where
  auth_mac : Fin 6 → Fin 256
  found : Bool
  times_seen : ℕ
  samples : ℕ → ℤ
  idx : ℕ
  ready : Bool
  result_prev : ℚ

/-- The initial values of the statics of `app_beacon.c`. -/
def initBeaconState : BeaconState where
  auth_mac := fun _ => 0
  found := false
  times_seen := 0
  samples := fun _ => 0
  idx := 0
  ready := false
  result_prev := 0

/-- A decoded advertisement record: the fields of `scan_rst` used by
`app_beacon__ble_gap_cb` (`search_evt`, `bda`, `ble_adv`, `rssi`). -/
structure AdvRecord where
  search_evt : ℕ
  bda : Fin 6 → Fin 256
  ble_adv : ℕ → Fin 256
  rssi : ℤ

/-- The observable side effects of one `ESP_GAP_BLE_SCAN_RESULT_EVT`
callback invocation: the argument passed to
`app_status__set_beacon_battery_low_status` (if it was called), whether
`app_pwm__set_duty_max` was invoked (open the lid), whether the check task
was resumed, and the freshly computed moving-average output (if one was
produced this call). -/
structure AdvOut where
  battery : Option ℕ
  set_duty_max : Bool
  resume_check : Bool
  smoothed : Option ℚ
  deriving DecidableEq

/-- No side effects. -/
def noAdvOut : AdvOut := ⟨none, false, false, none⟩

/-- The acceptance filter of the `ESP_GAP_SEARCH_INQ_RES_EVT` branch of
`app_beacon__ble_gap_cb`: the event must be a discovery result, the source
address must equal the authorized MAC byte for byte, and the payload must
begin with the fixed 12-byte Eddystone-TLM header pattern (compile-time
switches `SCAN_FILTER_MAC` and `SCAN_FILTER_EDD_TLM` are both on,
`SCAN_FILTER_RSSI` is off). -/
def scanAccept (st : BeaconState) (r : AdvRecord) : Bool :=
  (r.search_evt == ESP_GAP_SEARCH_INQ_RES_EVT)
  && (st.auth_mac 0 == r.bda 0 && st.auth_mac 1 == r.bda 1
      && st.auth_mac 2 == r.bda 2 && st.auth_mac 3 == r.bda 3
      && st.auth_mac 4 == r.bda 4 && st.auth_mac 5 == r.bda 5)
  && (r.ble_adv 0 == (0x02 : Fin 256) && r.ble_adv 1 == (0x01 : Fin 256)
      && r.ble_adv 2 == (0x06 : Fin 256) && r.ble_adv 3 == (0x03 : Fin 256)
      && r.ble_adv 4 == (0x03 : Fin 256) && r.ble_adv 5 == (0xaa : Fin 256)
      && r.ble_adv 6 == (0xfe : Fin 256) && r.ble_adv 7 == (0x11 : Fin 256)
      && r.ble_adv 8 == (0x16 : Fin 256) && r.ble_adv 9 == (0xaa : Fin 256)
      && r.ble_adv 10 == (0xfe : Fin 256) && r.ble_adv 11 == (0x20 : Fin 256))

/-- Sum of the first `n` slots of the sample array, mirroring the averaging
loop `for (i = 0; i < RSSI_MOVING_AVG_NUM_OF_SAMPLES; i++)`. -/
def sampleSum (f : ℕ → ℤ) : ℕ → ℤ
  | 0 => 0
  | n + 1 => sampleSum f n + f n

/-- The signal-smoother part of the accepted-advertisement path
(`app_beacon.c` lines 324-360): store the sample at the current index,
advance the index, handle the not-ready early return, average, apply the
slew clamp against `rssi_moving_avg_result_prev` (skipped when the previous
value is zero), wrap the index, and record the result as the new previous
value.  Returns the updated state and `some` output, or `none` on the
not-ready early return. -/
def observe (st : BeaconState) (rssi : ℤ) : BeaconState × Option ℚ :=
  let samples' : ℕ → ℤ := fun n => if n = st.idx then rssi else st.samples n
  let idx1 := st.idx + 1
  if ¬st.ready ∧ idx1 < RSSI_MOVING_AVG_NUM_OF_SAMPLES - 1 then
    ({ st with samples := samples', idx := idx1 }, none)
  else
    let avg : ℚ := (sampleSum samples' RSSI_MOVING_AVG_NUM_OF_SAMPLES : ℚ)
      / (RSSI_MOVING_AVG_NUM_OF_SAMPLES : ℚ)
    let result : ℚ :=
      if st.result_prev ≠ 0 then
        if avg > st.result_prev + 2 then st.result_prev + 2
        else if avg < st.result_prev - 2 then st.result_prev - 2
        else avg
      else avg
    let idx2 := if idx1 = RSSI_MOVING_AVG_NUM_OF_SAMPLES then 0 else idx1
    ({ st with samples := samples', idx := idx2, ready := true,
               result_prev := result }, some result)

/-- The 16-bit beacon battery value read from the payload:
`(ble_adv[10 + 3] << 8) | ble_adv[11 + 3]`, i.e. big-endian bytes 13-14. -/
def beacon_bat_mv (r : AdvRecord) : ℕ :=
  ((r.ble_adv (10 + 3)).val <<< 8) ||| (r.ble_adv (11 + 3)).val

/-- The presence-debounce step on a produced moving-average output
(`app_beacon.c` lines 396-410): when the output is at least the detection
floor, increment `times_seen` (capped), and when the beacon was not yet
found and the counter has reached the detection threshold, set `found`,
open the lid and resume the check task. Returns
(new state, `set_duty_max` invoked, check task resumed). -/
def debounce (st : BeaconState) (q : ℚ) : BeaconState × Bool × Bool :=
  if q ≥ (MIN_RSSI_FOR_DETECTION_DBM : ℚ) then
    let ts := if st.times_seen < MAX_TIMES_SEEN then st.times_seen + 1 else st.times_seen
    if ¬st.found ∧ ts ≥ MIN_TIMES_SEEN_FOR_DETECTION then
      ({ st with times_seen := ts, found := true }, true, true)
    else
      ({ st with times_seen := ts }, false, false)
  else
    (st, false, false)

/-- The `ESP_GAP_BLE_SCAN_RESULT_EVT` branch of `app_beacon__ble_gap_cb`:
filter, smooth, drive the beacon-battery-low sink from the payload battery
value (threshold 3000 mV), debounce.  Rejected or not-ready records fall
through with the corresponding prefix of the effects. -/
def ble_gap_cb_scan_result (st : BeaconState) (r : AdvRecord) : BeaconState × AdvOut :=
  if scanAccept st r then
    match observe st r.rssi with
    | (st1, none) => (st1, noAdvOut)
    | (st1, some q) =>
      let blow : ℕ := if beacon_bat_mv r < 3000 then 1 else 0
      match debounce st1 q with
      | (st2, opened, resumed) =>
        (st2, ⟨some blow, opened, resumed, some q⟩)
  else
    (st, noAdvOut)

/-- Function `app_beacon__set_auth_mac`: copy the six given bytes into
`beacon.auth_mac`.  The function reads and writes no other module state
(`scan_status` included, passed through here to make that explicit) and
performs no side effect. -/
def app_beacon__set_auth_mac (scan_status : BleScanStatus) (st : BeaconState)
    (mac_addr : Fin 6 → Fin 256) : BleScanStatus × BeaconState × AdvOut :=
  (scan_status, { st with auth_mac := mac_addr }, noAdvOut)

/-- Observable side effects of one cycle of `app_beacon__beacon_check_task`:
whether `app_pwm__set_duty_min` was invoked (close the lid) and whether the
task suspended itself (parked until the next qualifying sighting). -/
structure CheckOut where
  set_duty_min : Bool
  park : Bool
  deriving DecidableEq

/-- One iteration of the loop body of `app_beacon__beacon_check_task`
(`app_beacon.c` lines 556-581), after the wait has elapsed: `prev_seen` is
the value of `beacon.times_seen` read before the wait, `st` the state after
the wait, `ttw` the current `time_to_wait_before_check`.  Returns the new
state, the new wait time and the actions.  (The `uint16_t` comparison
`beacon.times_seen - beacon_times_seen_prev == 0` holds exactly when the
two counters are equal.) -/
def beacon_check_cycle (st : BeaconState) (prev_seen : ℕ) (ttw : ℕ) :
    BeaconState × ℕ × CheckOut :=
  if st.found ∧ st.times_seen = prev_seen ∧ st.times_seen ≠ 0 then
    let ts := st.times_seen - 1
    if ts = 0 then
      ({ st with times_seen := ts, found := false },
       TIME_BEFORE_BEACON_LOST_CHECK_INIT_VAL_MS, ⟨true, true⟩)
    else if ttw ≥ 750 then
      ({ st with times_seen := ts },
       ttw - TIME_BEFORE_BEACON_LOST_CHECK_DECREMENT_MS, ⟨false, false⟩)
    else
      ({ st with times_seen := ts }, ttw, ⟨false, false⟩)
  else
    (st, TIME_BEFORE_BEACON_LOST_CHECK_INIT_VAL_MS, ⟨false, false⟩)

/-- Iterate the advertisement callback over a list of records (state only). -/
def runAdv (st : BeaconState) : List AdvRecord → BeaconState
  | [] => st
  | r :: rs => runAdv (ble_gap_cb_scan_result st r).1 rs

/-- Reachable-state invariant of the debounce counter: it never exceeds the
cap, and while the beacon is not found it stays below the detection
threshold. -/
def beaconInv (st : BeaconState) : Prop :=
  st.times_seen ≤ MAX_TIMES_SEEN ∧
  (st.found = false → st.times_seen ≤ MIN_TIMES_SEEN_FOR_DETECTION - 1)

/-! ## The scan lifecycle state machine

`scan_status` together with the asynchronous hardware operations that
`esp_ble_gap_set_scan_params` / `esp_ble_gap_start_scanning` /
`esp_ble_gap_stop_scanning` leave in flight.  The in-flight completions are
modelled as a FIFO queue: issuing an operation appends its completion kind,
and the hardware delivers the oldest outstanding completion (with a success
or failure status) to `app_beacon__ble_gap_cb`.  The synchronous bring-up
calls in `app_beacon__init` are assumed to succeed. -/

/-- The kind of an asynchronous hardware completion event
(`ESP_GAP_BLE_SCAN_PARAM_SET_COMPLETE_EVT`, `ESP_GAP_BLE_SCAN_START_COMPLETE_EVT`,
`ESP_GAP_BLE_SCAN_STOP_COMPLETE_EVT`). -/
inductive HwCmpl
  | param_set
  | scan_start
  | scan_stop
  deriving DecidableEq, Repr, Fintype

/-- The scan machine configuration: the `scan_status` static plus the queue
of in-flight hardware completions. -/
structure ScanConfig where
  status : BleScanStatus
  pending : List HwCmpl
  deriving DecidableEq, Repr

/-- The initial configuration: `scan_status = ble_scan_uninit`, nothing in
flight. -/
def initScanConfig : ScanConfig := ⟨ble_scan_uninit, []⟩

/-- Function `app_beacon__init`, reduced to its effect on the scan machine: guard
against double initialization, set `ble_scan_initialing`, and (the
synchronous bring-up calls succeeding) leave a parameter-set completion in
flight from `esp_ble_gap_set_scan_params`. -/
def app_beacon__init (c : ScanConfig) : ScanConfig :=
  if c.status ≠ ble_scan_uninit then c
  else ⟨ble_scan_initialing, c.pending ++ [HwCmpl.param_set]⟩

/-- Function `app_beacon__ble_scan_start`. -/
def app_beacon__ble_scan_start (c : ScanConfig) : ScanConfig :=
  if c.status = ble_scan_uninit then
    app_beacon__init c
  else if c.status = ble_scan_off then
    ⟨ble_scan_starting, c.pending ++ [HwCmpl.scan_start]⟩
  else if c.status = ble_scan_stopping then
    { c with status := ble_scan_start_pending }
  else if c.status = ble_scan_stop_pending then
    { c with status := ble_scan_off }
  else
    c

/-- Function `app_beacon__ble_scan_stop`. -/
def app_beacon__ble_scan_stop (c : ScanConfig) : ScanConfig :=
  if c.status = ble_scan_uninit then
    c
  else if c.status = ble_scan_on then
    ⟨ble_scan_stopping, c.pending ++ [HwCmpl.scan_stop]⟩
  else if c.status = ble_scan_starting ∨ c.status = ble_scan_initialing then
    { c with status := ble_scan_stop_pending }
  else
    c

/-- The completion branches of `app_beacon__ble_gap_cb`, applied to a
delivered completion of kind `k` with status `ok`. -/
def ble_gap_cb_complete (k : HwCmpl) (ok : Bool) (c : ScanConfig) : ScanConfig :=
  match k with
  | HwCmpl.param_set =>
    if ¬ok then { c with status := ble_scan_uninit }
    else
      let c1 := if c.status ≠ ble_scan_stop_pending
        then { c with status := ble_scan_off } else c
      app_beacon__ble_scan_start c1
  | HwCmpl.scan_start =>
    if ¬ok then { c with status := ble_scan_off }
    else
      let scan_status_temp := c.status
      let c1 := { c with status := ble_scan_on }
      if scan_status_temp = ble_scan_stop_pending
        then app_beacon__ble_scan_stop c1 else c1
  | HwCmpl.scan_stop =>
    if ¬ok then { c with status := ble_scan_on }
    else
      let scan_status_temp := c.status
      let c1 := { c with status := ble_scan_off }
      if scan_status_temp = ble_scan_start_pending
        then app_beacon__ble_scan_start c1 else c1

/-- An event of the scan machine: an explicit request, or delivery of the
oldest in-flight hardware completion with success flag `ok`. -/
inductive ScanEvent
  | req_start
  | req_stop
  | hw_complete (ok : Bool)
  deriving DecidableEq, Repr, Fintype

/-- One event of the scan machine.  A delivery with nothing in flight is
impossible and yields `none`. -/
def scanStep (c : ScanConfig) : ScanEvent → Option ScanConfig
  | ScanEvent.req_start => some (app_beacon__ble_scan_start c)
  | ScanEvent.req_stop => some (app_beacon__ble_scan_stop c)
  | ScanEvent.hw_complete ok =>
    match c.pending with
    | [] => none
    | k :: rest => some (ble_gap_cb_complete k ok { c with pending := rest })

/-- Run a sequence of scan events. -/
def runScan (c : ScanConfig) : List ScanEvent → Option ScanConfig
  | [] => some c
  | e :: es =>
    match scanStep c e with
    | none => none
    | some c' => runScan c' es

/-- A request kind, for tracking the most recent explicit request. -/
inductive Req
  | start
  | stop
  deriving DecidableEq, Repr, Fintype

/-- Track the most recent request across one event. -/
def updLast : ScanEvent → Option Req → Option Req
  | ScanEvent.req_start, _ => some Req.start
  | ScanEvent.req_stop, _ => some Req.stop
  | ScanEvent.hw_complete _, l => l

/-- The most recent request in `es`, starting from `l`. -/
def lastReq (es : List ScanEvent) (l : Option Req) : Option Req :=
  es.foldl (fun acc e => updLast e acc) l

/-- Side conditions under which the quiescence property holds: every
delivered completion succeeded, no `stop()` is requested while the machine
is `Uninitialized` or `StartPending`, and no `start()` is requested while it
is `StopPending`. -/
def discOk (c : ScanConfig) : ScanEvent → Bool
  | ScanEvent.req_start => c.status != ble_scan_stop_pending
  | ScanEvent.req_stop =>
    c.status != ble_scan_start_pending && c.status != ble_scan_uninit
  | ScanEvent.hw_complete ok => ok

/-- Predicate stating that `discOk` holds at every step of the trace (and
every step is enabled). -/
def disciplined : ScanConfig → List ScanEvent → Bool
  | _, [] => true
  | c, e :: es =>
    discOk c e &&
      (match scanStep c e with
       | none => false
       | some c' => disciplined c' es)

/-- Inductive invariant of disciplined all-success traces: the status
determines the queue of in-flight completions and the most recent request. -/
def scanInv (st : BleScanStatus) (p : List HwCmpl) (l : Option Req) : Bool :=
  match st with
  | ble_scan_uninit => p == [] && l == none
  | ble_scan_initialing => p == [HwCmpl.param_set] && l == some Req.start
  | ble_scan_off => p == [] && l == some Req.stop
  | ble_scan_starting => p == [HwCmpl.scan_start] && l == some Req.start
  | ble_scan_on => p == [] && l == some Req.start
  | ble_scan_stopping => p == [HwCmpl.scan_stop] && l == some Req.stop
  | ble_scan_start_pending => p == [HwCmpl.scan_stop] && l == some Req.start
  | ble_scan_stop_pending =>
    (p == [HwCmpl.param_set] || p == [HwCmpl.scan_start]) && l == some Req.stop

/-- The four queue shapes that occur under `scanInv`. -/
def pendCases : Fin 4 → List HwCmpl
  | 0 => []
  | 1 => [HwCmpl.param_set]
  | 2 => [HwCmpl.scan_start]
  | 3 => [HwCmpl.scan_stop]

/-- One-step preservation of `scanInv`, as a decidable check. -/
def stepCheck (c : ScanConfig) (l : Option Req) (e : ScanEvent) : Bool :=
  !(scanInv c.status c.pending l && discOk c e) ||
    (match scanStep c e with
     | none => true
     | some c' => scanInv c'.status c'.pending (updLast e l))

/-- The fixed 12-byte Eddystone-TLM header, followed by zero bytes. -/
def tlmHeaderBytes : ℕ → Fin 256 :=
  fun n => if n = 0 then 0x02 else if n = 1 then 0x01 else if n = 2 then 0x06
    else if n = 3 then 0x03 else if n = 4 then 0x03 else if n = 5 then 0xaa
    else if n = 6 then 0xfe else if n = 7 then 0x11 else if n = 8 then 0x16
    else if n = 9 then 0xaa else if n = 10 then 0xfe else if n = 11 then 0x20
    else 0

/-- A discovery advertisement from the all-zero (boot-time authorized)
address with a valid TLM header, zero telemetry bytes and the given RSSI. -/
def advAt (rssi : ℤ) : AdvRecord :=
  ⟨ESP_GAP_SEARCH_INQ_RES_EVT, fun _ => 0, tlmHeaderBytes, rssi⟩

/-- A warmed-up module state: authorized address all-zero, not present, two
sightings, all samples at −40, previous output −40. -/
def warmState : BeaconState :=
  ⟨fun _ => 0, false, 2, fun _ => -40, 0, true, -40⟩

/-- A state in which the beacon is currently present with one sighting. -/
def presentState : BeaconState :=
  ⟨fun _ => 0, true, 1, fun _ => -40, 0, true, -40⟩

/-- An advertisement from a non-authorized address with otherwise valid
payload. -/
def rejAdv : AdvRecord :=
  ⟨ESP_GAP_SEARCH_INQ_RES_EVT, fun _ => 1, tlmHeaderBytes, -40⟩

/-- The request/completion trace that refutes last-writer-wins: start the
scan, let it come up, request stop, then start, then stop again while the
machine is in `ble_scan_start_pending`. -/
def lastWriterCexTrace : List ScanEvent :=
  [ScanEvent.req_start, ScanEvent.hw_complete true, ScanEvent.hw_complete true,
   ScanEvent.req_stop, ScanEvent.req_start, ScanEvent.req_stop,
   ScanEvent.hw_complete true, ScanEvent.hw_complete true]

/-- A disciplined trace: start the scan, deliver the parameter-set
completion, deliver the scan-start completion. -/
def quiescenceWitTrace : List ScanEvent :=
  [ScanEvent.req_start, ScanEvent.hw_complete true, ScanEvent.hw_complete true]

set_option maxHeartbeats 2000000

/-- Preservation: `stepCheck` holds for every status, every queue shape allowed by
`scanInv`, every remembered request and every event. -/
theorem scanStep_preserves : ∀ (st : BleScanStatus) (i : Fin 4) (l : Option Req)
    (e : ScanEvent), stepCheck ⟨st, pendCases i⟩ l e = true := by decide

/-- Under `scanInv` the queue has one of the four shapes of `pendCases`. -/
theorem scanInv_pending (st : BleScanStatus) (p : List HwCmpl) (l : Option Req)
    (h : scanInv st p l = true) : ∃ i : Fin 4, p = pendCases i := by
  cases st <;> simp only [scanInv, Bool.and_eq_true, Bool.or_eq_true, beq_iff_eq] at h
  · exact ⟨0, h.1⟩
  · exact ⟨1, h.1⟩
  · exact ⟨0, h.1⟩
  · exact ⟨2, h.1⟩
  · exact ⟨0, h.1⟩
  · exact ⟨3, h.1⟩
  · exact ⟨3, h.1⟩
  · rcases h.1 with h1 | h1
    · exact ⟨1, h1⟩
    · exact ⟨2, h1⟩

/-- Induction: `scanInv` is an invariant of disciplined traces. -/
theorem runScan_inv : ∀ (es : List ScanEvent) (c : ScanConfig) (l : Option Req)
    (c' : ScanConfig), scanInv c.status c.pending l = true →
    disciplined c es = true → runScan c es = some c' →
    scanInv c'.status c'.pending (lastReq es l) = true := by
  intro es
  induction es with
  | nil =>
    intro c l c' hinv _ hr
    simp only [runScan, Option.some.injEq] at hr
    subst hr
    exact hinv
  | cons e es ih =>
    intro c l c' hinv hd hr
    simp only [disciplined, Bool.and_eq_true] at hd
    obtain ⟨hok, hd⟩ := hd
    cases hs : scanStep c e with
    | none => rw [hs] at hd; simp at hd
    | some c1 =>
      rw [hs] at hd
      simp only [runScan] at hr
      rw [hs] at hr
      obtain ⟨i, hp⟩ := scanInv_pending c.status c.pending l hinv
      have hc : c = ⟨c.status, pendCases i⟩ := by
        cases c; simp_all
      have hcheck := scanStep_preserves c.status i l e
      rw [← hc] at hcheck
      unfold stepCheck at hcheck
      rw [hinv, hok, hs] at hcheck
      simp only [Bool.and_self, Bool.not_true, Bool.false_or] at hcheck
      show scanInv c'.status c'.pending (lastReq es (updLast e l)) = true
      exact ih c1 (updLast e l) c' hcheck hd hr

/-- With an empty queue, `scanInv` pins the status to the remembered
request. -/
theorem scanInv_empty (st : BleScanStatus) (l : Option Req)
    (h : scanInv st [] l = true) :
    (l = some Req.start → st = ble_scan_on) ∧
    (l = some Req.stop → st = ble_scan_off) := by
  revert h; revert l; revert st; decide

/-- Claim C1, counterexample: on the trace `lastWriterCexTrace` every
delivered hardware completion succeeds, the run ends with no completion in
flight, the most recent request is `stop()` (issued while the machine was in
`ble_scan_start_pending`, where `app_beacon__ble_scan_stop` falls into its
final no-op branch), yet the final scan state is `ble_scan_on`, not
`ble_scan_off`. -/
theorem scan_last_writer_wins_counterexample :
    runScan initScanConfig lastWriterCexTrace = some ⟨ble_scan_on, []⟩ ∧
    (lastWriterCexTrace.all fun e => match e with
      | ScanEvent.hw_complete ok => ok
      | _ => true) = true ∧
    lastReq lastWriterCexTrace none = some Req.stop ∧
    (⟨ble_scan_on, []⟩ : ScanConfig).status ≠ ble_scan_off := by decide

/-- Claim C1 (amended): for every sequence of start/stop requests
interleaved with hardware completion events in which every delivered
completion succeeds, no `stop()` is requested while the machine is
`Uninitialized` or `StartPending`, and no `start()` is requested while it is
`StopPending`, the scan state never leaves the eight-state enumeration, and
once every in-flight completion has been delivered the state is
`ble_scan_on` if the most recent request was `start()` and `ble_scan_off`
if it was `stop()`. -/
theorem scan_quiescence_under_discipline (es : List ScanEvent) (c' : ScanConfig)
    (hd : disciplined initScanConfig es = true)
    (hr : runScan initScanConfig es = some c')
    (hq : c'.pending = []) :
    (c'.status = ble_scan_uninit ∨ c'.status = ble_scan_initialing ∨
     c'.status = ble_scan_off ∨ c'.status = ble_scan_starting ∨
     c'.status = ble_scan_on ∨ c'.status = ble_scan_stopping ∨
     c'.status = ble_scan_start_pending ∨ c'.status = ble_scan_stop_pending) ∧
    (lastReq es none = some Req.start → c'.status = ble_scan_on) ∧
    (lastReq es none = some Req.stop → c'.status = ble_scan_off) := by
  have h := runScan_inv es initScanConfig none c' (by decide) hd hr
  rw [hq] at h
  refine ⟨?_, (scanInv_empty _ _ h).1, (scanInv_empty _ _ h).2⟩
  cases c'.status <;> tauto

/-- Witness for C1: on `quiescenceWitTrace` the hypotheses of
`scan_quiescence_under_discipline` hold and the machine ends `ble_scan_on`
with the most recent request being `start()`. -/
theorem scan_quiescence_under_discipline_witness :
    disciplined initScanConfig quiescenceWitTrace = true ∧
    runScan initScanConfig quiescenceWitTrace = some ⟨ble_scan_on, []⟩ ∧
    lastReq quiescenceWitTrace none = some Req.start ∧
    (⟨ble_scan_on, []⟩ : ScanConfig).status = ble_scan_on :=
  ⟨by decide, by decide, by decide,
   (scan_quiescence_under_discipline quiescenceWitTrace ⟨ble_scan_on, []⟩
     (by decide) (by decide) rfl).2.1 (by decide)⟩

/-! ## Theorems about the advertisement path and the loss-check loop -/

/-- Frame of `debounce`: only `found` and `times_seen` can change. -/
theorem debounce_frame (st : BeaconState) (q : ℚ) :
    (debounce st q).1.samples = st.samples ∧ (debounce st q).1.idx = st.idx ∧
    (debounce st q).1.ready = st.ready ∧
    (debounce st q).1.result_prev = st.result_prev ∧
    (debounce st q).1.auth_mac = st.auth_mac := by
  unfold debounce
  split_ifs <;> simp <;> split_ifs <;> simp

/-- When no early return happens, `observe` produces an output equal to the
new `result_prev`, and leaves `found`, `times_seen` and `auth_mac` alone. -/
theorem observe_produces (st : BeaconState) (rssi : ℤ)
    (h : st.ready = true ∨ RSSI_MOVING_AVG_NUM_OF_SAMPLES - 1 ≤ st.idx + 1) :
    (observe st rssi).2 = some ((observe st rssi).1.result_prev) ∧
    (observe st rssi).1.times_seen = st.times_seen ∧
    (observe st rssi).1.found = st.found ∧
    (observe st rssi).1.ready = true ∧
    (observe st rssi).1.auth_mac = st.auth_mac := by
  have hc : ¬(¬st.ready = true ∧ st.idx + 1 < RSSI_MOVING_AVG_NUM_OF_SAMPLES - 1) := by
    rcases h with h | h
    · simp [h]
    · omega
  unfold observe
  simp only [if_neg hc]
  simp

/-- The smoother `observe` writes only at `idx ≤ 7` and keeps the index at most 7. -/
theorem observe_idx_bounds (st : BeaconState) (rssi : ℤ) (h : st.idx ≤ 7) :
    (observe st rssi).1.idx ≤ 7 ∧
    (∀ n, 7 < n → (observe st rssi).1.samples n = st.samples n) := by
  unfold observe
  by_cases hc : (¬st.ready = true ∧ st.idx + 1 < RSSI_MOVING_AVG_NUM_OF_SAMPLES - 1)
  · rw [if_pos hc]
    refine ⟨?_, ?_⟩
    · simp only [RSSI_MOVING_AVG_NUM_OF_SAMPLES] at hc ⊢
      omega
    · intro n hn
      simp only
      rw [if_neg (by omega)]
  · rw [if_neg hc]
    refine ⟨?_, ?_⟩
    · simp only [RSSI_MOVING_AVG_NUM_OF_SAMPLES]
      split_ifs <;> omega
    · intro n hn
      simp only
      rw [if_neg (by omega)]

/-- In the no-early-return case with a nonzero previous value, the output of
`observe` is the slew-clamped mean, hence within 2 of the previous value. -/
theorem observe_clamped (st : BeaconState) (rssi : ℤ)
    (h : ¬(¬st.ready = true ∧ st.idx + 1 < RSSI_MOVING_AVG_NUM_OF_SAMPLES - 1))
    (hprev : st.result_prev ≠ 0) :
    ∃ q : ℚ, (observe st rssi).2 = some q ∧
      (observe st rssi).1.result_prev = q ∧
      st.result_prev - 2 ≤ q ∧ q ≤ st.result_prev + 2 := by
  unfold observe
  rw [if_neg h]
  dsimp only
  rw [if_pos hprev]
  refine ⟨_, rfl, rfl, ?_, ?_⟩ <;> split_ifs with h1 h2 <;> linarith

/-- Joining a value shifted left by `k` bits with a `k`-bit value is
ordinary positional arithmetic. -/
theorem mul_two_pow_lor_eq_add : ∀ (k b a : ℕ), b < 2 ^ k →
    a * 2 ^ k ||| b = a * 2 ^ k + b := by
  intro k
  induction k with
  | zero =>
    intro b a h
    interval_cases b
    simp
  | succ k ih =>
    intro b a h
    have hb : b = Nat.bit (decide (b % 2 = 1)) (b / 2) := by
      rw [Nat.bit_val]
      rcases Nat.mod_two_eq_zero_or_one b with h2 | h2 <;> simp [h2] <;> omega
    have ha : a * 2 ^ (k + 1) = Nat.bit false (a * 2 ^ k) := by
      rw [Nat.bit_val]
      simp [pow_succ]
      ring
    rw [hb, ha, Nat.lor_bit, Bool.false_or]
    have hb2 : b / 2 < 2 ^ k := by
      rw [pow_succ] at h
      omega
    rw [ih (b / 2) a hb2]
    rw [Nat.bit_val, Nat.bit_val]
    rcases Nat.mod_two_eq_zero_or_one b with h2 | h2 <;>
      simp [h2, pow_succ] <;> (generalize 2 ^ k = x at *) <;> omega

/-- The battery field computation is the big-endian value of payload
bytes 13 and 14. -/
theorem beacon_bat_mv_eq (r : AdvRecord) :
    beacon_bat_mv r = 256 * (r.ble_adv 13).val + (r.ble_adv 14).val := by
  unfold beacon_bat_mv
  rw [Nat.shiftLeft_eq,
    mul_two_pow_lor_eq_add 8 (r.ble_adv (11 + 3)).val (r.ble_adv (10 + 3)).val
      (by have := (r.ble_adv (11 + 3)).isLt; omega)]
  norm_num [mul_comm]

/-- The smoother never touches the debounce counters. -/
theorem observe_counters (st : BeaconState) (rssi : ℤ) :
    (observe st rssi).1.times_seen = st.times_seen ∧
    (observe st rssi).1.found = st.found := by
  unfold observe
  by_cases hc : (¬st.ready = true ∧ st.idx + 1 < RSSI_MOVING_AVG_NUM_OF_SAMPLES - 1)
  · rw [if_pos hc]
    exact ⟨rfl, rfl⟩
  · rw [if_neg hc]
    exact ⟨rfl, rfl⟩

/-- Initially `beaconInv` holds. -/
theorem beaconInv_init : beaconInv initBeaconState := by
  constructor <;> simp [initBeaconState, MAX_TIMES_SEEN, MIN_TIMES_SEEN_FOR_DETECTION]

/-- Every advertisement callback preserves `beaconInv`. -/
theorem beaconInv_adv (st : BeaconState) (r : AdvRecord) (h : beaconInv st) :
    beaconInv (ble_gap_cb_scan_result st r).1 := by
  unfold beaconInv at h ⊢
  simp only [MAX_TIMES_SEEN, MIN_TIMES_SEEN_FOR_DETECTION] at h ⊢
  unfold ble_gap_cb_scan_result
  by_cases hacc : scanAccept st r = true
  · simp only [hacc, if_true]
    obtain ⟨h1, h2⟩ := observe_counters st r.rssi
    rcases ho : observe st r.rssi with ⟨st1, q?⟩
    rw [ho] at h1 h2
    simp only at h1 h2
    cases q? with
    | none =>
      simp only
      rw [h1, h2]
      exact h
    | some q =>
      simp only
      unfold debounce
      simp only [MAX_TIMES_SEEN, MIN_TIMES_SEEN_FOR_DETECTION]
      by_cases hq : q ≥ ((MIN_RSSI_FOR_DETECTION_DBM : ℤ) : ℚ)
      · rw [if_pos hq]
        by_cases hlt : st1.times_seen < 4
        · rw [if_pos hlt]
          by_cases hdet : (¬st1.found = true ∧ st1.times_seen + 1 ≥ 3)
          · rw [if_pos hdet]
            dsimp only
            exact ⟨by omega, by simp⟩
          · rw [if_neg hdet]
            dsimp only
            refine ⟨by omega, fun hf => ?_⟩
            have hnd : ¬(st1.times_seen + 1 ≥ 3) := fun hh =>
              hdet ⟨by simp [hf], hh⟩
            omega
        · rw [if_neg hlt]
          by_cases hdet : (¬st1.found = true ∧ st1.times_seen ≥ 3)
          · rw [if_pos hdet]
            dsimp only
            exact ⟨by omega, by simp⟩
          · rw [if_neg hdet]
            dsimp only
            refine ⟨by omega, fun hf => ?_⟩
            have hnd : ¬(st1.times_seen ≥ 3) := fun hh => hdet ⟨by simp [hf], hh⟩
            omega
      · rw [if_neg hq]
        refine ⟨by rw [h1]; exact h.1, fun hf => ?_⟩
        rw [h1]
        exact h.2 (by rw [← h2]; exact hf)
  · simp only [hacc, if_false]
    exact h

/-- Every loss-check cycle preserves `beaconInv`. -/
theorem beaconInv_check (st : BeaconState) (prev ttw : ℕ) (h : beaconInv st) :
    beaconInv (beacon_check_cycle st prev ttw).1 := by
  unfold beaconInv at h ⊢
  simp only [MAX_TIMES_SEEN, MIN_TIMES_SEEN_FOR_DETECTION] at h ⊢
  unfold beacon_check_cycle
  by_cases h1 : (st.found = true ∧ st.times_seen = prev ∧ st.times_seen ≠ 0)
  · rw [if_pos h1]
    by_cases hz : st.times_seen - 1 = 0
    · rw [if_pos hz]
      dsimp only
      exact ⟨by omega, fun _ => by omega⟩
    · rw [if_neg hz]
      by_cases ht : ttw ≥ 750
      · rw [if_pos ht]
        dsimp only
        exact ⟨by omega, fun hf => absurd h1.1 (by simp [hf])⟩
      · rw [if_neg ht]
        dsimp only
        exact ⟨by omega, fun hf => absurd h1.1 (by simp [hf])⟩
  · rw [if_neg h1]
    exact h

/-- Claim C2: on an accepted advertisement for which a smoothed output is
produced and is at least the detection floor of −48, the sightings counter
is incremented but capped at 4, and the presence flag flips to `found` with
a single lid-open action exactly when the counter reaches the threshold 3;
while already present no further open action is produced.  The hypotheses
`hcap` and `hdeb` are the reachable-state invariants of the counter. -/
theorem sighting_debounce_open (st : BeaconState) (r : AdvRecord)
    (hacc : scanAccept st r = true)
    (hprod : st.ready = true ∨ RSSI_MOVING_AVG_NUM_OF_SAMPLES - 1 ≤ st.idx + 1)
    (hcap : st.times_seen ≤ MAX_TIMES_SEEN)
    (hdeb : st.found = false → st.times_seen ≤ MIN_TIMES_SEEN_FOR_DETECTION - 1) :
    ∃ q : ℚ,
      (ble_gap_cb_scan_result st r).2.smoothed = some q ∧
      ((MIN_RSSI_FOR_DETECTION_DBM : ℚ) ≤ q →
        (ble_gap_cb_scan_result st r).1.times_seen
          = (if st.times_seen < MAX_TIMES_SEEN then st.times_seen + 1
             else st.times_seen) ∧
        (ble_gap_cb_scan_result st r).1.times_seen ≤ MAX_TIMES_SEEN ∧
        ((ble_gap_cb_scan_result st r).2.set_duty_max = true ↔
          st.found = false ∧
          (ble_gap_cb_scan_result st r).1.times_seen = MIN_TIMES_SEEN_FOR_DETECTION) ∧
        ((ble_gap_cb_scan_result st r).1.found = true ↔
          st.found = true ∨
          (ble_gap_cb_scan_result st r).1.times_seen = MIN_TIMES_SEEN_FOR_DETECTION) ∧
        (st.found = true → (ble_gap_cb_scan_result st r).2.set_duty_max = false)) := by
  obtain ⟨hsm, hts, hfd, -, -⟩ := observe_produces st r.rssi hprod
  unfold ble_gap_cb_scan_result
  rcases ho : observe st r.rssi with ⟨st1, q?⟩
  rw [ho] at hsm hts hfd
  simp only at hsm hts hfd
  subst hsm
  simp only [hacc, if_true]
  refine ⟨st1.result_prev, rfl, fun hq => ?_⟩
  unfold debounce
  rw [hts]
  simp only [MIN_TIMES_SEEN_FOR_DETECTION, MAX_TIMES_SEEN] at *
  rw [if_pos (show st1.result_prev ≥ ((MIN_RSSI_FOR_DETECTION_DBM : ℤ) : ℚ) from hq)]
  by_cases hf : st.found = true
  · have hf1 : st1.found = true := by rw [hfd]; exact hf
    rw [if_neg (show ¬(¬st1.found = true ∧
        (if st.times_seen < 4 then st.times_seen + 1 else st.times_seen) ≥ 3) from
      fun hcon => hcon.1 hf1)]
    dsimp only
    refine ⟨rfl, by split_ifs <;> omega, by simp [hf], by simp [hf1, hf], by simp⟩
  · have hf' : st.found = false := by simpa using hf
    have hf1 : st1.found = false := by rw [hfd]; exact hf'
    have hle : st.times_seen ≤ 2 := hdeb hf'
    have hlt : st.times_seen < 4 := by omega
    rw [if_pos hlt]
    by_cases h3 : st.times_seen + 1 ≥ 3
    · rw [if_pos (show (¬st1.found = true ∧ st.times_seen + 1 ≥ 3) from
        ⟨by simp [hf1], h3⟩)]
      dsimp only
      refine ⟨rfl, by omega, ?_, ?_, by simp [hf']⟩
      · simp only [hf', true_and, true_iff]
        omega
      · simp only [hf', Bool.false_eq_true, false_or, true_iff]
        omega
    · rw [if_neg (show ¬(¬st1.found = true ∧ st.times_seen + 1 ≥ 3) from
        fun hcon => h3 hcon.2)]
      dsimp only
      refine ⟨rfl, by omega, ?_, ?_, by simp⟩
      · simp only [Bool.false_eq_true, false_iff, not_and, hf']
        intro
        omega
      · simp only [hf1, hf', Bool.false_eq_true, false_or, false_iff]
        omega

/-- Witness for C2 at `warmState` and a −40 dBm advertisement. -/
theorem sighting_debounce_open_witness :
    ∃ q : ℚ,
      (ble_gap_cb_scan_result warmState (advAt (-40))).2.smoothed = some q ∧
      ((MIN_RSSI_FOR_DETECTION_DBM : ℚ) ≤ q →
        (ble_gap_cb_scan_result warmState (advAt (-40))).1.times_seen
          = (if warmState.times_seen < MAX_TIMES_SEEN then warmState.times_seen + 1
             else warmState.times_seen) ∧
        (ble_gap_cb_scan_result warmState (advAt (-40))).1.times_seen ≤ MAX_TIMES_SEEN ∧
        ((ble_gap_cb_scan_result warmState (advAt (-40))).2.set_duty_max = true ↔
          warmState.found = false ∧
          (ble_gap_cb_scan_result warmState (advAt (-40))).1.times_seen
            = MIN_TIMES_SEEN_FOR_DETECTION) ∧
        ((ble_gap_cb_scan_result warmState (advAt (-40))).1.found = true ↔
          warmState.found = true ∨
          (ble_gap_cb_scan_result warmState (advAt (-40))).1.times_seen
            = MIN_TIMES_SEEN_FOR_DETECTION) ∧
        (warmState.found = true →
          (ble_gap_cb_scan_result warmState (advAt (-40))).2.set_duty_max = false)) :=
  sighting_debounce_open warmState (advAt (-40)) (by decide) (Or.inl rfl)
    (by decide) (fun _ => by decide)

/-- Claim C3: in a loss-check cycle where the counter did not change during
the wait, the state is present and the counter is positive, the counter is
decremented by exactly one; the presence flag is cleared, the lid closed,
the loop parked and the interval reset to 1000 ms exactly when the
decrement reaches zero; with a changed counter the state is untouched and
no action taken. -/
theorem loss_check_cycle (st : BeaconState) (prev ttw : ℕ) :
    (st.found = true → st.times_seen = prev → st.times_seen ≠ 0 →
      (beacon_check_cycle st prev ttw).1.times_seen = st.times_seen - 1 ∧
      (((beacon_check_cycle st prev ttw).1.found = false ∧
        (beacon_check_cycle st prev ttw).2.2.set_duty_min = true ∧
        (beacon_check_cycle st prev ttw).2.2.park = true ∧
        (beacon_check_cycle st prev ttw).2.1
          = TIME_BEFORE_BEACON_LOST_CHECK_INIT_VAL_MS) ↔
        st.times_seen - 1 = 0) ∧
      (st.times_seen - 1 ≠ 0 →
        (beacon_check_cycle st prev ttw).1.found = true ∧
        (beacon_check_cycle st prev ttw).2.2.set_duty_min = false ∧
        (beacon_check_cycle st prev ttw).2.2.park = false)) ∧
    (st.times_seen ≠ prev →
      (beacon_check_cycle st prev ttw).1 = st ∧
      (beacon_check_cycle st prev ttw).2.2.set_duty_min = false ∧
      (beacon_check_cycle st prev ttw).2.2.park = false) := by
  constructor
  · intro hf hprev hnz
    have hcond : st.found = true ∧ st.times_seen = prev ∧ st.times_seen ≠ 0 :=
      ⟨hf, hprev, hnz⟩
    unfold beacon_check_cycle
    rw [if_pos hcond]
    by_cases hz : st.times_seen - 1 = 0
    · rw [if_pos hz]
      dsimp only
      exact ⟨rfl, by simp [hz], fun h => absurd hz h⟩
    · rw [if_neg hz]
      by_cases ht : ttw ≥ 750
      · rw [if_pos ht]
        dsimp only
        exact ⟨rfl, by simp [hf, hz], fun _ => ⟨hf, rfl, rfl⟩⟩
      · rw [if_neg ht]
        dsimp only
        exact ⟨rfl, by simp [hf, hz], fun _ => ⟨hf, rfl, rfl⟩⟩
  · intro hne
    unfold beacon_check_cycle
    rw [if_neg (show ¬(st.found = true ∧ st.times_seen = prev ∧
        st.times_seen ≠ 0) from fun hcon => hne hcon.2.1)]
    exact ⟨rfl, rfl, rfl⟩

/-- Witness for C3 at `presentState` with an unchanged counter of 1: the
decrement reaches zero and the close/park/reset effects all fire. -/
theorem loss_check_cycle_witness :
    (beacon_check_cycle presentState 1 1000).1.times_seen
      = presentState.times_seen - 1 ∧
    (((beacon_check_cycle presentState 1 1000).1.found = false ∧
      (beacon_check_cycle presentState 1 1000).2.2.set_duty_min = true ∧
      (beacon_check_cycle presentState 1 1000).2.2.park = true ∧
      (beacon_check_cycle presentState 1 1000).2.1
        = TIME_BEFORE_BEACON_LOST_CHECK_INIT_VAL_MS) ↔
    presentState.times_seen - 1 = 0) :=
  ⟨((loss_check_cycle presentState 1 1000).1 rfl rfl (by decide)).1,
   ((loss_check_cycle presentState 1 1000).1 rfl rfl (by decide)).2.1⟩

/-- Claim C4: seven accepted advertisements at RSSI −40 already flip the
ready flag (the code tests `index < N − 1` after the increment) and make
the smoother emit −35 — the mean of the seven observed samples and the
never-written slot's initial 0 — although only six advertisements leave it
not ready and the mean of the seven observed samples is −40. -/
theorem moving_avg_ready_after_seven :
    (runAdv initBeaconState (List.replicate 6 (advAt (-40)))).ready = false ∧
    (runAdv initBeaconState (List.replicate 7 (advAt (-40)))).ready = true ∧
    (ble_gap_cb_scan_result (runAdv initBeaconState
      (List.replicate 6 (advAt (-40)))) (advAt (-40))).2.smoothed
      = some (-35 : ℚ) ∧
    (-35 : ℚ) ≠ (-40 : ℚ) := by
  refine ⟨by decide, ?_, ?_, by norm_num⟩ <;>
  norm_num [runAdv, ble_gap_cb_scan_result, scanAccept, observe, debounce,
    sampleSum, beacon_bat_mv, initBeaconState, advAt, tlmHeaderBytes, noAdvOut,
    RSSI_MOVING_AVG_NUM_OF_SAMPLES, MIN_RSSI_FOR_DETECTION_DBM,
    MIN_TIMES_SEEN_FOR_DETECTION, MAX_TIMES_SEEN, ESP_GAP_SEARCH_INQ_RES_EVT]

/-- Claim C5 (amended): the loss-check interval starts at 1000 ms and every
cycle leaves it at either 1000 ms or 500 ms (the decrement fires only while
the interval is at least 750 ms, so it can shrink exactly once); hence it
never drops below 500 ms. -/
theorem loss_check_interval_invariant (st : BeaconState) (prev ttw : ℕ)
    (h : ttw = TIME_BEFORE_BEACON_LOST_CHECK_INIT_VAL_MS ∨
      ttw = TIME_BEFORE_BEACON_LOST_CHECK_INIT_VAL_MS
        - TIME_BEFORE_BEACON_LOST_CHECK_DECREMENT_MS) :
    ((beacon_check_cycle st prev ttw).2.1
        = TIME_BEFORE_BEACON_LOST_CHECK_INIT_VAL_MS ∨
      (beacon_check_cycle st prev ttw).2.1
        = TIME_BEFORE_BEACON_LOST_CHECK_INIT_VAL_MS
          - TIME_BEFORE_BEACON_LOST_CHECK_DECREMENT_MS) ∧
    500 ≤ (beacon_check_cycle st prev ttw).2.1 := by
  simp only [TIME_BEFORE_BEACON_LOST_CHECK_INIT_VAL_MS,
    TIME_BEFORE_BEACON_LOST_CHECK_DECREMENT_MS] at *
  unfold beacon_check_cycle
  simp only [TIME_BEFORE_BEACON_LOST_CHECK_INIT_VAL_MS,
    TIME_BEFORE_BEACON_LOST_CHECK_DECREMENT_MS]
  split_ifs <;> dsimp only <;> omega

/-- Witness for C5 (amended) at the initial interval value. -/
theorem loss_check_interval_invariant_witness :
    ((beacon_check_cycle presentState 1 TIME_BEFORE_BEACON_LOST_CHECK_INIT_VAL_MS).2.1
        = TIME_BEFORE_BEACON_LOST_CHECK_INIT_VAL_MS ∨
      (beacon_check_cycle presentState 1 TIME_BEFORE_BEACON_LOST_CHECK_INIT_VAL_MS).2.1
        = TIME_BEFORE_BEACON_LOST_CHECK_INIT_VAL_MS
          - TIME_BEFORE_BEACON_LOST_CHECK_DECREMENT_MS) ∧
    500 ≤ (beacon_check_cycle presentState 1
      TIME_BEFORE_BEACON_LOST_CHECK_INIT_VAL_MS).2.1 :=
  loss_check_interval_invariant presentState 1 _ (Or.inl rfl)

/-- Claim C5, counterexample: boot the detector, deliver ten qualifying
advertisements (presence becomes confirmed with the counter at its cap of
4), then run one loss-check cycle in which the counter did not change: the
interval becomes 500 ms, strictly below the claimed 750 ms floor. -/
theorem loss_check_interval_below_750 :
    (beacon_check_cycle (runAdv initBeaconState (List.replicate 10 (advAt (-40))))
      (runAdv initBeaconState (List.replicate 10 (advAt (-40)))).times_seen
      TIME_BEFORE_BEACON_LOST_CHECK_INIT_VAL_MS).2.1 = 500 ∧
    (500 : ℕ) < 750 := by
  have hf : (runAdv initBeaconState (List.replicate 10 (advAt (-40)))).found = true := by
    norm_num [runAdv, ble_gap_cb_scan_result, scanAccept, observe, debounce,
      sampleSum, beacon_bat_mv, initBeaconState, advAt, tlmHeaderBytes, noAdvOut,
      RSSI_MOVING_AVG_NUM_OF_SAMPLES, MIN_RSSI_FOR_DETECTION_DBM,
      MIN_TIMES_SEEN_FOR_DETECTION, MAX_TIMES_SEEN, ESP_GAP_SEARCH_INQ_RES_EVT]
  have hts : (runAdv initBeaconState (List.replicate 10 (advAt (-40)))).times_seen = 4 := by
    norm_num [runAdv, ble_gap_cb_scan_result, scanAccept, observe, debounce,
      sampleSum, beacon_bat_mv, initBeaconState, advAt, tlmHeaderBytes, noAdvOut,
      RSSI_MOVING_AVG_NUM_OF_SAMPLES, MIN_RSSI_FOR_DETECTION_DBM,
      MIN_TIMES_SEEN_FOR_DETECTION, MAX_TIMES_SEEN, ESP_GAP_SEARCH_INQ_RES_EVT]
  refine ⟨?_, by norm_num⟩
  unfold beacon_check_cycle
  rw [if_pos ⟨hf, rfl, by rw [hts]; omega⟩]
  rw [hts]
  norm_num [TIME_BEFORE_BEACON_LOST_CHECK_INIT_VAL_MS,
    TIME_BEFORE_BEACON_LOST_CHECK_DECREMENT_MS]

/-- Claim C6 (amended): on any accepted advertisement processed while the
smoother is past its warm-up and the stored previous output is nonzero, the
new output lies within `[previous − 2, previous + 2]` of the previous
output, and becomes the new stored previous output. -/
theorem slew_clamp_bounds (st : BeaconState) (r : AdvRecord)
    (hacc : scanAccept st r = true)
    (hprod : st.ready = true ∨ RSSI_MOVING_AVG_NUM_OF_SAMPLES - 1 ≤ st.idx + 1)
    (hprev : st.result_prev ≠ 0) :
    ∃ q : ℚ, (ble_gap_cb_scan_result st r).2.smoothed = some q ∧
      st.result_prev - 2 ≤ q ∧ q ≤ st.result_prev + 2 ∧
      (ble_gap_cb_scan_result st r).1.result_prev = q := by
  have hc : ¬(¬st.ready = true ∧ st.idx + 1 < RSSI_MOVING_AVG_NUM_OF_SAMPLES - 1) := by
    rcases hprod with h | h
    · simp [h]
    · omega
  obtain ⟨q, hq1, hq2, hq3, hq4⟩ := observe_clamped st r.rssi hc hprev
  unfold ble_gap_cb_scan_result
  rcases ho : observe st r.rssi with ⟨st1, q?⟩
  rw [ho] at hq1 hq2
  simp only at hq1 hq2
  subst hq1
  simp only [hacc, if_true]
  obtain ⟨hdf1, hdf2, hdf3, hdf4, hdf5⟩ := debounce_frame st1 q
  exact ⟨q, rfl, hq3, hq4, hdf4.trans hq2⟩

/-- Witness for C6 (amended) at `warmState` (previous output −40). -/
theorem slew_clamp_bounds_witness :
    ∃ q : ℚ,
      (ble_gap_cb_scan_result warmState (advAt (-40))).2.smoothed = some q ∧
      warmState.result_prev - 2 ≤ q ∧ q ≤ warmState.result_prev + 2 ∧
      (ble_gap_cb_scan_result warmState (advAt (-40))).1.result_prev = q :=
  slew_clamp_bounds warmState (advAt (-40)) (by decide) (Or.inl rfl) (by decide)

/-- Claim C6, counterexample: seven accepted advertisements at RSSI 0 make
the smoother's first output 0 (stored as the previous output); one
following advertisement at RSSI 800 then produces the output 100, far
outside `[previous − 2, previous + 2] = [−2, 2]`, because the slew clamp is
skipped whenever the stored previous output is exactly 0. -/
theorem slew_clamp_skipped_at_zero_prev :
    (ble_gap_cb_scan_result (runAdv initBeaconState
      (List.replicate 6 (advAt 0))) (advAt 0)).2.smoothed = some (0 : ℚ) ∧
    (ble_gap_cb_scan_result (runAdv initBeaconState
      (List.replicate 7 (advAt 0))) (advAt 800)).2.smoothed = some (100 : ℚ) ∧
    ¬((0 : ℚ) - 2 ≤ 100 ∧ (100 : ℚ) ≤ 0 + 2) := by
  refine ⟨?_, ?_, by norm_num⟩ <;>
  norm_num [runAdv, ble_gap_cb_scan_result, scanAccept, observe, debounce,
    sampleSum, beacon_bat_mv, initBeaconState, advAt, tlmHeaderBytes, noAdvOut,
    RSSI_MOVING_AVG_NUM_OF_SAMPLES, MIN_RSSI_FOR_DETECTION_DBM,
    MIN_TIMES_SEEN_FOR_DETECTION, MAX_TIMES_SEEN, ESP_GAP_SEARCH_INQ_RES_EVT]

/-- Claim C7 (amended): on every accepted advertisement for which a
smoothed output is produced, the beacon-battery-low sink is driven with 1
exactly when the big-endian value of payload bytes 13-14 is below 3000 mV
and with 0 exactly when it is 3000 mV or above. -/
theorem battery_low_threshold (st : BeaconState) (r : AdvRecord)
    (hacc : scanAccept st r = true)
    (hprod : st.ready = true ∨ RSSI_MOVING_AVG_NUM_OF_SAMPLES - 1 ≤ st.idx + 1) :
    ((ble_gap_cb_scan_result st r).2.battery
      = some (if beacon_bat_mv r < 3000 then 1 else 0)) ∧
    ((ble_gap_cb_scan_result st r).2.battery = some 1 ↔
      256 * (r.ble_adv 13).val + (r.ble_adv 14).val < 3000) ∧
    ((ble_gap_cb_scan_result st r).2.battery = some 0 ↔
      3000 ≤ 256 * (r.ble_adv 13).val + (r.ble_adv 14).val) := by
  obtain ⟨hsm, -, -, -, -⟩ := observe_produces st r.rssi hprod
  unfold ble_gap_cb_scan_result
  rcases ho : observe st r.rssi with ⟨st1, q?⟩
  rw [ho] at hsm
  simp only at hsm
  subst hsm
  simp only [hacc, if_true]
  rw [← beacon_bat_mv_eq]
  by_cases hb : beacon_bat_mv r < 3000
  · simp [hb]
  · simp [hb]
    omega

/-- Witness for C7 (amended) at `warmState` (battery bytes 0, below the
3000 mV threshold). -/
theorem battery_low_threshold_witness :
    ((ble_gap_cb_scan_result warmState (advAt (-40))).2.battery
      = some (if beacon_bat_mv (advAt (-40)) < 3000 then 1 else 0)) ∧
    ((ble_gap_cb_scan_result warmState (advAt (-40))).2.battery = some 1 ↔
      256 * ((advAt (-40)).ble_adv 13).val + ((advAt (-40)).ble_adv 14).val < 3000) ∧
    ((ble_gap_cb_scan_result warmState (advAt (-40))).2.battery = some 0 ↔
      3000 ≤ 256 * ((advAt (-40)).ble_adv 13).val + ((advAt (-40)).ble_adv 14).val) :=
  battery_low_threshold warmState (advAt (-40)) (by decide) (Or.inl rfl)

/-- Claim C7, counterexample: the very first accepted advertisement is
dropped by the smoother's warm-up early return before the battery code
runs, so the beacon-battery-low sink is not driven at all, although the
advertisement is accepted and its battery value 0 mV is below 3000 mV. -/
theorem battery_sink_not_driven_during_warmup :
    scanAccept initBeaconState (advAt (-40)) = true ∧
    beacon_bat_mv (advAt (-40)) < 3000 ∧
    (ble_gap_cb_scan_result initBeaconState (advAt (-40))).2.battery = none := by
  decide

/-- Claim C8: a record is accepted iff it is a discovery-type event from the
authorized address whose payload starts with the fixed 12-byte header; every
rejected record leaves the whole module state unchanged and produces no
side effect. -/
theorem adv_filter_accept_iff_and_frame (st : BeaconState) (r : AdvRecord) :
    (scanAccept st r = true ↔
      (r.search_evt = ESP_GAP_SEARCH_INQ_RES_EVT ∧
       (∀ i : Fin 6, st.auth_mac i = r.bda i) ∧
       (r.ble_adv 0 = 0x02 ∧ r.ble_adv 1 = 0x01 ∧ r.ble_adv 2 = 0x06 ∧
        r.ble_adv 3 = 0x03 ∧ r.ble_adv 4 = 0x03 ∧ r.ble_adv 5 = 0xaa ∧
        r.ble_adv 6 = 0xfe ∧ r.ble_adv 7 = 0x11 ∧ r.ble_adv 8 = 0x16 ∧
        r.ble_adv 9 = 0xaa ∧ r.ble_adv 10 = 0xfe ∧ r.ble_adv 11 = 0x20))) ∧
    (scanAccept st r = false → ble_gap_cb_scan_result st r = (st, noAdvOut)) := by
  constructor
  · unfold scanAccept
    simp only [Bool.and_eq_true, beq_iff_eq]
    constructor
    · rintro ⟨⟨h1, h2⟩, h3⟩
      refine ⟨h1, ?_, ?_⟩
      · intro i
        fin_cases i <;> tauto
      · tauto
    · rintro ⟨h1, h2, h3⟩
      exact ⟨⟨h1, ⟨⟨⟨⟨⟨h2 0, h2 1⟩, h2 2⟩, h2 3⟩, h2 4⟩, h2 5⟩⟩, by tauto⟩
  · intro h
    unfold ble_gap_cb_scan_result
    simp [h]

/-- Witness for C8: a record from a non-authorized address is rejected and
leaves the state and outputs untouched. -/
theorem adv_filter_accept_iff_and_frame_witness :
    scanAccept initBeaconState rejAdv = false ∧
    ble_gap_cb_scan_result initBeaconState rejAdv = (initBeaconState, noAdvOut) :=
  ⟨by decide,
   (adv_filter_accept_iff_and_frame initBeaconState rejAdv).2 (by decide)⟩

/-- Claim C9: `app_beacon__set_auth_mac` stores exactly the six given bytes
as the authorized address and changes nothing else: scan status, presence
flag, sightings counter, sample buffer, write index, ready flag and
previous smoothed value are untouched, and no side effect is produced. -/
theorem set_auth_mac_frame (scan_status : BleScanStatus) (st : BeaconState)
    (mac_addr : Fin 6 → Fin 256) :
    (app_beacon__set_auth_mac scan_status st mac_addr).2.1.auth_mac = mac_addr ∧
    (app_beacon__set_auth_mac scan_status st mac_addr).1 = scan_status ∧
    (app_beacon__set_auth_mac scan_status st mac_addr).2.1.found = st.found ∧
    (app_beacon__set_auth_mac scan_status st mac_addr).2.1.times_seen = st.times_seen ∧
    (app_beacon__set_auth_mac scan_status st mac_addr).2.1.samples = st.samples ∧
    (app_beacon__set_auth_mac scan_status st mac_addr).2.1.idx = st.idx ∧
    (app_beacon__set_auth_mac scan_status st mac_addr).2.1.ready = st.ready ∧
    (app_beacon__set_auth_mac scan_status st mac_addr).2.1.result_prev = st.result_prev ∧
    (app_beacon__set_auth_mac scan_status st mac_addr).2.2 = noAdvOut :=
  ⟨rfl, rfl, rfl, rfl, rfl, rfl, rfl, rfl, rfl⟩

/-- Claim C10: assuming the write-index invariant `idx ≤ 7` on entry, the
advertisement handler writes only inside the 8-slot sample array (slots
above 7 are untouched) and re-establishes `idx ≤ 7` on exit. -/
theorem rssi_write_index_bounds (st : BeaconState) (r : AdvRecord)
    (h : st.idx ≤ 7) :
    (ble_gap_cb_scan_result st r).1.idx ≤ 7 ∧
    (∀ n, 7 < n → (ble_gap_cb_scan_result st r).1.samples n = st.samples n) := by
  unfold ble_gap_cb_scan_result
  by_cases hacc : scanAccept st r = true
  · simp only [hacc, if_true]
    have hobs := observe_idx_bounds st r.rssi h
    rcases ho : observe st r.rssi with ⟨st1, q?⟩
    rw [ho] at hobs
    simp only at hobs
    cases q? with
    | none => simpa using hobs
    | some q =>
      simp only
      have hdf := debounce_frame st1 q
      rcases hd : debounce st1 q with ⟨st2, op, rs⟩
      rw [hd] at hdf
      simp only at hdf
      simp only [hd]
      exact ⟨hdf.2.1 ▸ hobs.1, fun n hn => by
        show st2.samples n = st.samples n
        rw [hdf.1]; exact hobs.2 n hn⟩
  · simp [hacc, h]

/-- Witness for C10 at the initial state (write index 0): the exit index is
in bounds and slot 8 is untouched. -/
theorem rssi_write_index_bounds_witness :
    (ble_gap_cb_scan_result initBeaconState (advAt (-40))).1.idx ≤ 7 ∧
    (ble_gap_cb_scan_result initBeaconState (advAt (-40))).1.samples 8
      = initBeaconState.samples 8 :=
  ⟨(rssi_write_index_bounds initBeaconState (advAt (-40)) (by decide)).1,
   (rssi_write_index_bounds initBeaconState (advAt (-40)) (by decide)).2 8 (by decide)⟩

end FeederFw
